import Mathlib

/-!
Verification of the `resp_server` repository (a Redis-like server in Python)
against its natural-language specification.

The development shallowly embeds the parts of the source the claims touch:

* `resp_server/protocol/resp.py` — the wire codec, embedded at the byte
  level (`List Nat`, each element a byte value).  A Python `str` is
  represented by the byte sequence of its UTF-8 encoding; the
  `bytes.decode("utf-8")` call of the source is represented by the
  `validUtf8` acceptance check (CPython strict decoding accepts exactly the
  well-formed UTF-8 byte sequences, and re-encoding the decoded string
  yields the same bytes, so the byte list itself is a faithful carrier).
* `resp_server/core/helpers.py` and `resp_server/core/datastore.py` — the
  store, embedded as explicit state passing over an association list that
  mirrors a Python dict in insertion order.
* `resp_server/core/command_execution.py` — the per-command branches the
  claims mention, embedded as functions from (time, state, arguments) to
  (response frame, state).
-/

namespace RespServer

/-! ## Decimal rendering and reading of lengths

Python renders lengths with `f"{len(...)}"` (decimal, no sign, no leading
zeros except for `0` itself) and reads them back with `int()` applied to a
regex group of ASCII digits. -/

/-- Decimal ASCII rendering of a natural number, as produced by Python
string formatting: `natToDecimal 0 = [48]` and otherwise the big-endian
digits of `n`, each offset by 48 (`0x30`). -/
def natToDecimal (n : Nat) : List Nat :=
  if n = 0 then [48] else (Nat.digits 10 n).reverse.map (fun d => d + 48)

/-- Recognizer for an ASCII digit byte, the byte-level meaning of the
regex class `\d` used by `ARRAY_HEADER_RE` and `BULK_HEADER_RE`. -/
def isDigitByte (b : Nat) : Bool := 48 ≤ b && b ≤ 57

/-- Numeric value of a big-endian run of ASCII digit bytes, the meaning of
Python `int()` on the digit-only group matched by the regexes. -/
def decValue (ds : List Nat) : Nat :=
  ds.foldl (fun a b => a * 10 + (b - 48)) 0

/-! ## UTF-8 validity

`parse_resp_array` decodes every bulk payload with `.decode("utf-8")`;
a malformed payload raises `UnicodeDecodeError`, which the function's
`except` clause turns into `None`.  `validUtf8` is the acceptance
predicate of CPython's strict UTF-8 decoder (RFC 3629: no overlong forms,
no surrogates, nothing above U+10FFFF). -/

/-- Recognizer for a UTF-8 continuation byte (`0x80`–`0xBF`). -/
def isCont (b : Nat) : Bool := 128 ≤ b && b ≤ 191

/-- Acceptance predicate of CPython's strict UTF-8 decoder: true exactly
when `bytes(l).decode("utf-8")` succeeds. -/
def validUtf8 : List Nat → Bool
  | [] => true
  | b :: rest =>
    if b ≤ 127 then validUtf8 rest
    else if 194 ≤ b && b ≤ 223 then
      match rest with
      | c1 :: rest2 => isCont c1 && validUtf8 rest2
      | [] => false
    else if 224 ≤ b && b ≤ 239 then
      match rest with
      | c1 :: c2 :: rest2 =>
        (if b = 224 then 160 ≤ c1 && c1 ≤ 191
         else if b = 237 then 128 ≤ c1 && c1 ≤ 159
         else isCont c1) && isCont c2 && validUtf8 rest2
      | _ => false
    else if 240 ≤ b && b ≤ 244 then
      match rest with
      | c1 :: c2 :: c3 :: rest2 =>
        (if b = 240 then 144 ≤ c1 && c1 ≤ 191
         else if b = 244 then 128 ≤ c1 && c1 ≤ 143
         else isCont c1) && isCont c2 && isCont c3 && validUtf8 rest2
      | _ => false
    else false

/-! ## Response encoders (`resp.py` lines 91–109)

Encoders are embedded at the byte level; the argument of
`encode_bulk_string` is the UTF-8 byte sequence of the Python `str`
argument, so `len(s_bytes)` is its list length (lengths are byte counts). -/

/-- Embeds `encode_bulk_string`: `$<len>\r\n<bytes>\r\n` with the length a
byte count. -/
def encode_bulk_string (s : List Nat) : List Nat :=
  36 :: natToDecimal s.length ++ [13, 10] ++ s ++ [13, 10]

/-- Embeds `encode_array`: `*<N>\r\n` followed by the already-encoded
items, `N` the number of items. -/
def encode_array (items : List (List Nat)) : List Nat :=
  42 :: natToDecimal items.length ++ [13, 10] ++ items.flatten

/-! ## Request parser (`resp.py` lines 29–88)

The Python body runs inside `try: ... except (ValueError,
UnicodeDecodeError): return None`.  The embedding makes the exception
behaviour explicit: every primitive that can raise in Python returns
`Except PyExc`, the body `parseRespBody` propagates, and
`parse_resp_array` applies the `except` clause.  `PyExc` lists the
exception classes a primitive of the body could raise in principle;
`indexError` stands for the uncaught kinds (byte indexing), which the body
never uses (it only slices, and Python slicing is total). -/

/-- Exception classes relevant to `parse_resp_array`: the two its
`except` clause catches, plus `indexError` representing any uncaught
class. -/
inductive PyExc where
  | valueError
  | unicodeDecodeError
  | indexError
deriving DecidableEq, Repr

/-- Embeds Python `int()` on a regex group: the group is a run of ASCII
digits; a non-digit or empty group would raise `ValueError`. -/
def pyIntOfDigits (ds : List Nat) : Except PyExc Nat :=
  if ds ≠ [] ∧ ds.all isDigitByte then .ok (decValue ds) else .error .valueError

/-- Embeds `bytes.decode("utf-8")` on the carrier representation: strict
decoding succeeds exactly on valid UTF-8 and re-encoding returns the same
bytes, so the decoded value is the byte list itself. -/
def pyUtf8Decode (s : List Nat) : Except PyExc (List Nat) :=
  if validUtf8 s then .ok s else .error .unicodeDecodeError

/-- Embeds a match of `<mark>(\d+)\r\n` anchored at the front of `data`
(`ARRAY_HEADER_RE` with mark `*` = 42, `BULK_HEADER_RE` with mark `$` =
36).  Because `\d` and `\r` are disjoint, the greedy `\d+` is the maximal
digit run; the match succeeds when the run is non-empty and followed by
`\r\n`.  Returns the digit group and the bytes after the match. -/
def matchLenHeader (mark : Nat) (data : List Nat) : Option (List Nat × List Nat) :=
  match data with
  | b :: rest =>
    if b = mark then
      let ds := rest.takeWhile isDigitByte
      match rest.dropWhile isDigitByte with
      | 13 :: 10 :: rest2 => if ds = [] then none else some (ds, rest2)
      | _ => none
    else none
  | [] => none

/-- Embeds the loop body of `parse_resp_array` (lines 59–83): parse
`count` bulk strings from the front of `data`.  Each step matches
`BULK_HEADER_RE` at the current offset, checks `content_end + 2 >
len(data)`, decodes the payload, and skips the trailing two bytes. -/
def parseBulks (count : Nat) (data : List Nat) : Except PyExc (Option (List (List Nat))) :=
  match count with
  | 0 => .ok (some [])
  | k + 1 =>
    match matchLenHeader 36 data with
    | none => .ok none
    | some (ds, rest) =>
      match pyIntOfDigits ds with
      | .error e => .error e
      | .ok bulk_length =>
        if rest.length < bulk_length + 2 then .ok none
        else
          match pyUtf8Decode (rest.take bulk_length) with
          | .error e => .error e
          | .ok content =>
            match parseBulks k (rest.drop (bulk_length + 2)) with
            | .error e => .error e
            | .ok none => .ok none
            | .ok (some tl) => .ok (content :: tl : List (List Nat))

/-- Embeds the `try` body of `parse_resp_array` (lines 38–84): the empty
check, the `ARRAY_HEADER_RE` match, and the bulk-string loop. -/
def parseRespBody (data : List Nat) : Except PyExc (Option (List (List Nat))) :=
  if data = [] then .ok none
  else
    match matchLenHeader 42 data with
    | none => .ok none
    | some (ds, rest) =>
      match pyIntOfDigits ds with
      | .error e => .error e
      | .ok array_length => parseBulks array_length rest

/-- Embeds `parse_resp_array`: the body under its `except (ValueError,
UnicodeDecodeError)` clause, which returns `None` for those two classes.
An `indexError` outcome would propagate in Python; the total Lean type
forces a branch for it, and `parse_resp_never_uncaught` shows the branch
is dead. -/
def parse_resp_array (data : List Nat) : Option (List (List Nat)) :=
  match parseRespBody data with
  | .ok r => r
  | .error .valueError => none
  | .error .unicodeDecodeError => none
  | .error .indexError => none

/-! ## Data model (`datastore.py`, `helpers.py`)

`DATA_STORE` maps keys to `{"type", "value", "expiry"}` dicts and is
embedded as an association list that mirrors a Python dict: lookup by
key, update in place (keeping the key's position), insertion of a new key
at the end, deletion by removal.  Every writer of the store
(`set_string`, `set_list`, `xadd`, `_incr_generic`, the RDB loader) keeps
the `"type"` tag consistent with the shape of `"value"` (invariant I1),
so the embedding derives the tag from the value and has no ill-typed
entries.  Times are absolute wall-clock milliseconds; operations that
consult the clock take `now` explicitly. -/

/-- The kind-dependent `"value"` field of a store entry: a string, a list
of strings, or `None` (streams keep their body in `STREAMS`). -/
inductive EntryVal where
  | vstr (s : String)
  | vlist (l : List String)
  | vnone
deriving DecidableEq, Repr

/-- The `"type"` tag an entry with this value carries in the source
(invariant I1: the tag uniquely selects the shape of the value). -/
def EntryVal.typeStr : EntryVal → String
  | .vstr _ => "string"
  | .vlist _ => "list"
  | .vnone => "stream"

/-- One `DATA_STORE` entry: `{"type", "value", "expiry"}` with the type
tag derived from the value. -/
structure Entry where
  value : EntryVal
  expiry : Option Int
deriving DecidableEq, Repr

/-- One `STREAMS` entry: `{"id", "fields"}`.  The source renders the id
pair as the string `"<ms>-<seq>"`; the embedding keeps the parsed pair,
which is in bijection with the well-formed rendered form. -/
structure StreamEntry where
  id : Nat × Nat
  fields : List (String × String)
deriving DecidableEq, Repr

/-- Python dict lookup `d.get(k)`. -/
def dictGet {α : Type} (k : String) : List (String × α) → Option α
  | [] => none
  | (k1, v) :: rest => if k1 = k then some v else dictGet k rest

/-- Python dict assignment `d[k] = v`: an existing key keeps its
position, a new key is appended (insertion order). -/
def dictSet {α : Type} (k : String) (v : α) : List (String × α) → List (String × α)
  | [] => [(k, v)]
  | (k1, v1) :: rest => if k1 = k then (k, v) :: rest else (k1, v1) :: dictSet k v rest

/-- Python dict deletion `del d[k]` (a no-op when `k` is absent, matching
the guarded deletions in the source). -/
def dictDel {α : Type} (k : String) : List (String × α) → List (String × α)
  | [] => []
  | (k1, v1) :: rest => if k1 = k then rest else (k1, v1) :: dictDel k rest

/-- The shared mutable state the claims touch: `DATA_STORE` and
`STREAMS`. -/
structure State where
  data : List (String × Entry)
  streams : List (String × List StreamEntry)
deriving DecidableEq, Repr

/-- Embeds `helpers.check_expiry` (lines 87–99): when the entry carries
an expiry and `now ≥ expiry`, the key is deleted from the store (and from
the side store when one is passed; `_get_entry` passes `STREAMS`,
`_incr_generic` does not) and the result is true. -/
def check_expiry_step (now : Int) (k : String) (e : Entry) (st : State) (sideStore : Bool) :
    Bool × State :=
  match e.expiry with
  | some t =>
    if now ≥ t then
      (true, ⟨dictDel k st.data, if sideStore then dictDel k st.streams else st.streams⟩)
    else (false, st)
  | none => (false, st)

/-- Embeds `helpers.get_valid_entry` (lines 101–116): raw lookup, expiry
check with removal, then the optional type filter (a mismatch yields
`None` without touching the entry). -/
def get_valid_entry (now : Int) (k : String) (st : State) (expected : Option String) :
    Option Entry × State :=
  match dictGet k st.data with
  | none => (none, st)
  | some e =>
    let res := check_expiry_step now k e st true
    if res.1 then (none, res.2)
    else
      match expected with
      | some t => if e.value.typeStr = t then (some e, res.2) else (none, res.2)
      | none => (some e, res.2)

/-! ### Datastore operations (`datastore.py`)

Each runs under `DATA_LOCK` in the source and is one atomic step here. -/

/-- Embeds `get_data_entry`: `get_valid_entry` with no expected type. -/
def get_data_entry (now : Int) (k : String) (st : State) : Option Entry × State :=
  get_valid_entry now k st none

/-- Embeds `delete_data_entry` (lines 63–69): removes the key from
`DATA_STORE` and, when present there, from `STREAMS`; returns the count
deleted. -/
def delete_data_entry (k : String) (st : State) : Nat × State :=
  match dictGet k st.data with
  | some _ => (1, ⟨dictDel k st.data, dictDel k st.streams⟩)
  | none => (0, st)

/-- Embeds `set_string` (lines 71–73). -/
def set_string (k : String) (v : String) (expiry : Option Int) (st : State) : State :=
  ⟨dictSet k ⟨.vstr v, expiry⟩ st.data, st.streams⟩

/-- Embeds `set_list` (lines 75–77): stores the element list as given,
replacing any existing entry. -/
def set_list (k : String) (elements : List String) (expiry : Option Int) (st : State) : State :=
  ⟨dictSet k ⟨.vlist elements, expiry⟩ st.data, st.streams⟩

/-- Embeds `existing_list` (lines 79–81); the expiry side effect of
`_get_entry` is part of the step. -/
def existing_list (now : Int) (k : String) (st : State) : Bool × State :=
  let res := get_valid_entry now k st (some "list")
  (res.1.isSome, res.2)

/-- Embeds `_list_push` (lines 46–49): a no-op unless the key holds a
valid (non-expired) list; prepend inserts at index 0, append at the
end.  The entry keeps its expiry. -/
def list_push (now : Int) (k : String) (element : String) (pre : Bool) (st : State) : State :=
  match get_valid_entry now k st (some "list") with
  | (some ⟨.vlist l, exp⟩, st1) =>
    ⟨dictSet k ⟨.vlist (if pre then element :: l else l ++ [element]), exp⟩ st1.data, st1.streams⟩
  | (_, st1) => st1

/-- Embeds `append_to_list` (lines 83–85). -/
def append_to_list (now : Int) (k : String) (element : String) (st : State) : State :=
  list_push now k element false st

/-- Embeds `prepend_to_list` (lines 87–89). -/
def prepend_to_list (now : Int) (k : String) (element : String) (st : State) : State :=
  list_push now k element true st

/-- Embeds `size_of_list` (lines 91–94): the length of a valid list entry,
else 0. -/
def size_of_list (now : Int) (k : String) (st : State) : Nat × State :=
  match get_valid_entry now k st (some "list") with
  | (some ⟨.vlist l, _⟩, st1) => (l.length, st1)
  | (_, st1) => (0, st1)

/-- Python slice `lst[a:b]` for the non-negative bounds `lrange_rtn`
produces (`a = max(0, start)`, `b = min(end + 1, L)`). -/
def pySlice (lst : List String) (a b : Int) : List String :=
  (lst.take b.toNat).drop a.toNat

/-- Embeds `lrange_rtn` (lines 96–107): negative indices are shifted by
the length, the start is clamped at 0, the result is empty when
`start > end` or `start ≥ L`, otherwise the slice `lst[start:min(end+1,L)]`. -/
def lrange_rtn (now : Int) (k : String) (start end_ : Int) (st : State) : List String × State :=
  match get_valid_entry now k st (some "list") with
  | (some ⟨.vlist lst, _⟩, st1) =>
    let L : Int := lst.length
    let start1 := if start < 0 then start + L else start
    let end1 := if end_ < 0 then end_ + L else end_
    let start2 := max 0 start1
    if start2 > end1 ∨ start2 ≥ L then ([], st1)
    else (pySlice lst start2 (min (end1 + 1) L), st1)
  | (_, st1) => ([], st1)

/-- States the `LRANGE` index semantics in the words of §4.2 of the
specification, for comparison with `lrange_rtn`: both bounds inclusive,
negative indices shifted by the length; after that normalization the
result is empty when `start > end` or `start ≥ length`, and otherwise is
the inclusive slice from `max(0, start)` to `min(length - 1, end)`. -/
def lrangeSpec (lst : List String) (start end_ : Int) : List String :=
  let L : Int := lst.length
  let start1 := if start < 0 then start + L else start
  let end1 := if end_ < 0 then end_ + L else end_
  if start1 > end1 ∨ start1 ≥ L then []
  else pySlice lst (max 0 start1) (min (L - 1) end1 + 1)

/-- Embeds `remove_elements_from_list` (lines 109–116): pops
`min(count, len)` elements from the head of a valid non-empty list
(`range` of a negative number is empty, so a negative count pops
nothing and returns `[]`); deletes the key when the list empties;
returns `None` when the key holds no valid non-empty list. -/
def remove_elements_from_list (now : Int) (k : String) (count : Int) (st : State) :
    Option (List String) × State :=
  match get_valid_entry now k st (some "list") with
  | (some ⟨.vlist l, exp⟩, st1) =>
    if l ≠ [] then
      let n := (min count (l.length : Int)).toNat
      let rest := l.drop n
      if rest = [] then (some (l.take n), ⟨dictDel k st1.data, st1.streams⟩)
      else (some (l.take n), ⟨dictSet k ⟨.vlist rest, exp⟩ st1.data, st1.streams⟩)
    else (none, st1)
  | (_, st1) => (none, st1)

/-- Value of a non-empty run of decimal digit characters. -/
def charDigitsVal (l : List Char) : Option Nat :=
  if l ≠ [] ∧ l.all Char.isDigit then
    some (l.foldl (fun a c => a * 10 + (c.toNat - 48)) 0)
  else none

/-- Embeds Python `int()` on an arbitrary string: an optional sign
followed by a non-empty digit run (surrounding whitespace and interior
underscores, which CPython also tolerates, are not modelled; no claim
depends on them). -/
def pyToInt (s : String) : Option Int :=
  match s.data with
  | [] => none
  | c :: rest =>
    if c = Char.ofNat 45 then (charDigitsVal rest).map (fun n => -(n : Int))
    else if c = Char.ofNat 43 then (charDigitsVal rest).map (fun n => (n : Int))
    else (charDigitsVal (c :: rest)).map (fun n => (n : Int))

/-- Embeds `_incr_generic` (lines 124–143): raw lookup, manual expiry
check (deleting only from `DATA_STORE`, no side store), creation with
`str(amount)` when absent or expired, `WRONGTYPE` on a non-string kind,
and integer update preserving the expiry; `int()` failure yields the
not-an-integer error with the entry untouched.  `increment_key_value`
is this with amount 1, `increment_key_value_by` with the given amount. -/
def incr_generic (now : Int) (k : String) (amount : Int) (st : State) :
    Except String Int × State :=
  match dictGet k st.data with
  | none => (.ok amount, ⟨dictSet k ⟨.vstr (toString amount), none⟩ st.data, st.streams⟩)
  | some e =>
    let res := check_expiry_step now k e st false
    if res.1 then
      (.ok amount, ⟨dictSet k ⟨.vstr (toString amount), none⟩ res.2.data, res.2.streams⟩)
    else
      match e.value with
      | .vstr s =>
        match pyToInt s with
        | some n =>
          (.ok (n + amount),
           ⟨dictSet k ⟨.vstr (toString (n + amount)), e.expiry⟩ res.2.data, res.2.streams⟩)
        | none => (.error "value is not an integer or out of range", res.2)
      | _ => (.error "WRONGTYPE Operation against a key holding the wrong kind of value", res.2)

/-! ## Command branches (`command_execution.py`, `execute_single_command`)

Responses are embedded as structured frames; the byte encoders of
`resp.py` applied to them are injective on the shapes below, so frame
equality and frame distinctness state exactly what the wire shows.  Each
embedded branch receives arguments already split and (where the source
applies `int()` to an argument) already parsed; the arity guards and the
argument parse failures of the source precede the behaviour the claims
are about. -/

/-- A response frame: simple string, error, bulk string, null bulk
(`$-1`), null array (`*-1`), integer, or array of frames. -/
inductive Resp where
  | simple (s : String)
  | error (s : String)
  | bulk (s : String)
  | nullBulk
  | nullArray
  | int (i : Int)
  | array (items : List Resp)
deriving Repr

/-- The `WRONGTYPE` error text used by `GET` and `_incr_generic`. -/
def wrongTypeMsg : String :=
  "WRONGTYPE Operation against a key holding the wrong kind of value"

/-- Embeds the `GET` branch (lines 134–155): absent key is a null bulk;
a non-string kind is a `WRONGTYPE` error; otherwise the value as a bulk
string. -/
def getCmd (now : Int) (st : State) (key : String) : Resp × State :=
  match get_data_entry now key st with
  | (none, st1) => (.nullBulk, st1)
  | (some e, st1) =>
    match e.value with
    | .vstr s => (.bulk s, st1)
    | _ => (.error wrongTypeMsg, st1)

/-- Embeds the `TYPE` branch (lines 466–481): the entry's type tag, or
`"none"` for an absent key, as a bulk string. -/
def typeCmd (now : Int) (st : State) (key : String) : Resp × State :=
  match get_data_entry now key st with
  | (none, st1) => (.bulk "none", st1)
  | (some e, st1) => (.bulk e.value.typeStr, st1)

/-- Embeds the `LLEN` branch (lines 189–195). -/
def llenCmd (now : Int) (st : State) (key : String) : Resp × State :=
  let res := size_of_list now key st
  (.int res.1, res.2)

/-- Embeds the `LRANGE` branch (lines 157–169), with `start` and `end`
already through `int()`. -/
def lrangeCmd (now : Int) (st : State) (key : String) (start end_ : Int) : Resp × State :=
  let res := lrange_rtn now key start end_ st
  (.array (res.1.map .bulk), res.2)

/-- Embeds the `LPOP` branch (lines 197–219): `none` for the count
argument means none was given (then the count is 1).  When the key holds
no valid list the response is a null bulk; so is a `None` pop result.  A
result of exactly one element is returned as a single bulk string — with
or without a count argument — and any other result as an array of
bulks. -/
def lpopCmd (now : Int) (st : State) (key : String) (countArg : Option Int) : Resp × State :=
  let ex := existing_list now key st
  if !ex.1 then (.nullBulk, ex.2)
  else
    let res := remove_elements_from_list now key (countArg.getD 1) ex.2
    match res.1 with
    | none => (.nullBulk, res.2)
    | some [e] => (.bulk e, res.2)
    | some elems => (.array (elems.map .bulk), res.2)

/-- Embeds the `RPUSH` branch (lines 221–285).  The pushed elements are
appended one by one when the key already holds a valid list, otherwise
`set_list` replaces whatever entry is there.  The reported size is read
*after* insertion and *before* any waiter handoff.  `hasWaiter` models a
non-empty `BLOCKING_CLIENTS[key]` queue: the head waiter is popped and
one element is popped from the head of the list and sent to it as the
frame `[key, element]`; the middle component is that element (`none`
when nothing was delivered).  The producer's response is the size
computed before the handoff pop. -/
def rpushCmd (now : Int) (st : State) (key : String) (elements : List String)
    (hasWaiter : Bool) : Resp × Option String × State :=
  let ex := existing_list now key st
  let st2 := if ex.1 then elements.foldl (fun s e => append_to_list now key e s) ex.2
             else set_list key elements none ex.2
  let sz := size_of_list now key st2
  if hasWaiter then
    let res := remove_elements_from_list now key 1 sz.2
    match res.1 with
    | some (e :: _) => (.int sz.1, some e, res.2)
    | _ => (.int sz.1, none, res.2)
  else (.int sz.1, none, sz.2)

/-- Embeds the `LPUSH` branch (lines 171–187): prepend one by one when a
valid list exists, otherwise `set_list` stores the elements as given
(not reversed), replacing any existing entry; no waiter handoff. -/
def lpushCmd (now : Int) (st : State) (key : String) (elements : List String) : Resp × State :=
  let ex := existing_list now key st
  let st2 := if ex.1 then elements.foldl (fun s e => prepend_to_list now key e s) ex.2
             else set_list key elements none ex.2
  let sz := size_of_list now key st2
  (.int sz.1, sz.2)

/-- Embeds the `KEYS` branch (lines 394–410): iterates `DATA_STORE` in
insertion order, keeping keys the pattern matches (only `*` and the
exact key); no expiry check and no state change. -/
def keysCmd (st : State) (pat : String) : Resp × State :=
  (.array ((st.data.filterMap
    (fun kv => if pat = "*" ∨ pat = kv.1 then some kv.1 else none)).map .bulk), st)

/-- Embeds the `INCR` branch (lines 684–699): `_incr_generic` with
amount 1; an error outcome is the error frame, success the integer. -/
def incrCmd (now : Int) (st : State) (key : String) : Resp × State :=
  match incr_generic now key 1 st with
  | (.ok n, st1) => (.int n, st1)
  | (.error m, st1) => (.error m, st1)

/-- Embeds the `INCRBY` branch (lines 711–726), with the amount already
through `int()`. -/
def incrByCmd (now : Int) (st : State) (key : String) (amount : Int) : Resp × State :=
  match incr_generic now key amount st with
  | (.ok n, st1) => (.int n, st1)
  | (.error m, st1) => (.error m, st1)

/-! ## Streams (`datastore.py` lines 188–222, `helpers.py` lines 9–24) -/

/-- Embeds `helpers.compare_stream_ids` on parsed ids: lexicographic on
`(ms, seq)`, returning 1, -1 or 0.  The source takes `"<ms>-<seq>"`
strings and returns 0 when either fails to parse; every id `xadd` stores
through the branches modelled here is well formed, and the embedding
covers that regime with ids carried as pairs. -/
def compare_stream_ids (id1 id2 : Nat × Nat) : Int :=
  if id1.1 ≠ id2.1 then (if id1.1 > id2.1 then 1 else -1)
  else if id1.2 ≠ id2.2 then (if id1.2 > id2.2 then 1 else -1)
  else 0

/-- Strict lexicographic order on parsed stream ids `(ms, seq)`: the
sense in which invariant I4 says ids are strictly increasing. -/
def idLt (a b : Nat × Nat) : Prop := a.1 < b.1 ∨ (a.1 = b.1 ∧ a.2 < b.2)

instance (a b : Nat × Nat) : Decidable (idLt a b) := by
  unfold idLt
  exact inferInstance

/-- The three syntactic classes of the `id` argument `xadd` dispatches
on: `"*"`, `"<ms>-*"`, and an explicit well-formed `"<ms>-<seq>"`. -/
inductive XaddId where
  | auto
  | autoSeq (ms : Nat)
  | explicit (ms seq : Nat)
deriving DecidableEq, Repr

/-- Embeds `xadd` (lines 192–222) on one stream's entry list (the source
also creates the `DATA_STORE` stream entry on first use, which no claim
here touches).  `last_id` is the last entry's id, `(0,0)` when the
stream is empty.  The explicit branch rejects ids at or below `last_id`
unless the stream top is the sentinel, then rejects the sentinel itself;
on success the entry is appended and the final id returned. -/
def xadd (nowMs : Nat) (entries : List StreamEntry) (idArg : XaddId)
    (fields : List (String × String)) : Except String ((Nat × Nat) × List StreamEntry) :=
  let last_id : Nat × Nat := ((entries.getLast?).map StreamEntry.id).getD (0, 0)
  match idArg with
  | .auto =>
    let fid := if nowMs > last_id.1 then (nowMs, 0) else (last_id.1, last_id.2 + 1)
    .ok (fid, entries ++ [⟨fid, fields⟩])
  | .autoSeq ms =>
    if ms > last_id.1 then .ok ((ms, 0), entries ++ [⟨(ms, 0), fields⟩])
    else if ms = last_id.1 then
      .ok ((ms, last_id.2 + 1), entries ++ [⟨(ms, last_id.2 + 1), fields⟩])
    else .error "The ID specified in XADD is equal or smaller than the target stream top item"
  | .explicit ms seq =>
    if compare_stream_ids (ms, seq) last_id ≤ 0 ∧ last_id ≠ (0, 0) then
      .error "The ID specified in XADD is equal or smaller than the target stream top item"
    else if (ms, seq) = (0, 0) then
      .error "The ID specified in XADD must be greater than 0-0"
    else .ok ((ms, seq), entries ++ [⟨(ms, seq), fields⟩])

/-! ## RDB loader primitives (`helpers.py` lines 43–52) -/

/-- Embeds `int.from_bytes(bs, "little")` (unsigned, as the source calls
it: no `signed=True`). -/
def intFromBytesLE (bs : List Nat) : Nat :=
  bs.foldr (fun b acc => acc * 256 + b) 0

/-- Embeds `int.from_bytes(bs, "big")` (unsigned). -/
def intFromBytesBE (bs : List Nat) : Nat :=
  bs.foldl (fun acc b => acc * 256 + b) 0

/-- Embeds `read_rdb_encoded_string`: sub-encoding in the low 6 bits of
the first byte selects 1 (big-endian), 2 or 4 (little-endian) following
bytes, rendered as a decimal string; other sub-encodings yield `None`.
The file handle is embedded as the byte list after `first_byte`; the
second component is what remains after the reads. -/
def read_rdb_encoded_string (first_byte : Nat) (data : List Nat) : Option String × List Nat :=
  let encoding_type := first_byte &&& 63
  if encoding_type = 0 then (some (toString (intFromBytesBE (data.take 1))), data.drop 1)
  else if encoding_type = 1 then (some (toString (intFromBytesLE (data.take 2))), data.drop 2)
  else if encoding_type = 2 then (some (toString (intFromBytesLE (data.take 4))), data.drop 4)
  else (none, data)

/-- Modelled from the spec: the interpretation §4.5 prescribes for
sub-encodings `0x01` and `0x02` — "next 2 bytes, little-endian, signed"
and "next 4 bytes, little-endian, signed" — which the source's unsigned
`int.from_bytes` call does not implement.  Two's-complement value of a
little-endian byte string. -/
def intFromBytesLEsigned (bs : List Nat) : Int :=
  let u := intFromBytesLE bs
  if u < 2 ^ (8 * bs.length - 1) then (u : Int) else (u : Int) - 2 ^ (8 * bs.length)

/-! ## Association-list laws

A Python dict never holds a key twice; states built through `dictSet` and
`dictDel` keep the key list `Nodup`, and the laws that need uniqueness
take it as a hypothesis. -/

theorem dictGet_set_self {α : Type} (k : String) (v : α) (d : List (String × α)) :
    dictGet k (dictSet k v d) = some v := by
  induction d with
  | nil => simp [dictSet, dictGet]
  | cons kv rest ih =>
    rcases kv with ⟨k1, v1⟩
    simp only [dictSet]
    split_ifs with h
    · simp [dictGet]
    · simp [dictGet, h, ih]

theorem dictGet_eq_none_of_not_mem {α : Type} {k : String} {d : List (String × α)}
    (h : k ∉ d.map Prod.fst) : dictGet k d = none := by
  induction d with
  | nil => simp [dictGet]
  | cons kv rest ih =>
    rcases kv with ⟨k1, v1⟩
    simp only [List.map_cons, List.mem_cons] at h
    push_neg at h
    have h1 : ¬ k1 = k := fun hh => h.1 hh.symm
    simp [dictGet, h1, ih h.2]

theorem dictGet_del_self {α : Type} (k : String) (d : List (String × α))
    (hnd : (d.map Prod.fst).Nodup) : dictGet k (dictDel k d) = none := by
  induction d with
  | nil => simp [dictDel, dictGet]
  | cons kv rest ih =>
    rcases kv with ⟨k1, v1⟩
    simp only [List.map_cons, List.nodup_cons] at hnd
    simp only [dictDel]
    split_ifs with h
    · subst h
      exact dictGet_eq_none_of_not_mem hnd.1
    · simp [dictGet, h, ih hnd.2]

/-! ## Behaviour of `get_valid_entry` on the three regimes a key can be
in: live (present, not expired), expired, absent. -/

theorem get_valid_entry_of_live {now : Int} {k : String} {st : State} {e : Entry}
    (hget : dictGet k st.data = some e) (hexp : ∀ t, e.expiry = some t → now < t)
    (expected : Option String) :
    get_valid_entry now k st expected =
      ((match expected with
        | some ty => if e.value.typeStr = ty then some e else none
        | none => some e), st) := by
  rcases hE : e.expiry with _ | t
  · cases expected <;>
      (simp [get_valid_entry, check_expiry_step, hget, hE]
       try (split_ifs <;> rfl))
  · have h1 : ¬ t ≤ now := not_le.mpr (hexp t hE)
    cases expected <;>
      (simp [get_valid_entry, check_expiry_step, hget, hE, h1]
       try (split_ifs <;> rfl))

theorem get_valid_entry_of_expired {now : Int} {k : String} {st : State} {e : Entry}
    {t : Int} (hget : dictGet k st.data = some e) (ht : e.expiry = some t)
    (hnow : t ≤ now) (expected : Option String) :
    get_valid_entry now k st expected = (none, ⟨dictDel k st.data, dictDel k st.streams⟩) := by
  cases expected <;> simp [get_valid_entry, check_expiry_step, hget, ht, hnow]

theorem get_valid_entry_of_absent {now : Int} {k : String} {st : State}
    (hget : dictGet k st.data = none) (expected : Option String) :
    get_valid_entry now k st expected = (none, st) := by
  simp [get_valid_entry, hget]

/-! ## Stream id ordering -/

theorem compare_stream_ids_pos_iff (a b : Nat × Nat) :
    0 < compare_stream_ids a b ↔ idLt b a := by
  rcases a with ⟨a1, a2⟩
  rcases b with ⟨b1, b2⟩
  simp only [compare_stream_ids, idLt]
  split_ifs <;> omega

/-- C6: for a stream with last id `L`, an explicit `XADD` id `(ms, seq)`
is rejected with "The ID specified in XADD is equal or smaller than the
target stream top item" when `(ms, seq) ≤ L` lexicographically and `L ≠
(0,0)`; past that check, the sentinel `(0,0)` is rejected with "The ID
specified in XADD must be greater than 0-0"; otherwise the entry is
appended, the id is returned, and a strictly increasing id sequence
stays strictly increasing. -/
theorem c6_xadd_explicit_id (nowMs ms seq : Nat) (entries : List StreamEntry)
    (fields : List (String × String)) (L : Nat × Nat)
    (hL : L = ((entries.getLast?).map StreamEntry.id).getD (0, 0)) :
    (compare_stream_ids (ms, seq) L ≤ 0 ∧ L ≠ (0, 0) →
      xadd nowMs entries (.explicit ms seq) fields =
        .error "The ID specified in XADD is equal or smaller than the target stream top item") ∧
    (¬ (compare_stream_ids (ms, seq) L ≤ 0 ∧ L ≠ (0, 0)) → (ms, seq) = (0, 0) →
      xadd nowMs entries (.explicit ms seq) fields =
        .error "The ID specified in XADD must be greater than 0-0") ∧
    (¬ (compare_stream_ids (ms, seq) L ≤ 0 ∧ L ≠ (0, 0)) → (ms, seq) ≠ (0, 0) →
      xadd nowMs entries (.explicit ms seq) fields =
        .ok ((ms, seq), entries ++ [⟨(ms, seq), fields⟩]) ∧
      (List.Chain' idLt (entries.map StreamEntry.id) →
        List.Chain' idLt ((entries ++ [(⟨(ms, seq), fields⟩ : StreamEntry)]).map StreamEntry.id))) := by
  subst hL
  refine ⟨?_, ?_, ?_⟩
  · intro h
    show (if _ ∧ _ then _ else _) = _
    rw [if_pos h]
  · intro h h0
    show (if _ ∧ _ then _ else _) = _
    rw [if_neg h, if_pos h0]
  · intro h h0
    refine ⟨?_, ?_⟩
    · show (if _ ∧ _ then _ else _) = _
      rw [if_neg h, if_neg h0]
    intro hc
    rw [List.map_append, List.chain'_append]
    refine ⟨hc, List.chain'_singleton _, ?_⟩
    intro x hx y hy
    simp only [List.map_cons, List.map_nil, List.head?_cons, Option.mem_def,
      Option.some.injEq] at hy
    subst hy
    rw [List.getLast?_map, Option.mem_def, Option.map_eq_some'] at hx
    obtain ⟨e, he, hxe⟩ := hx
    have hxL : x = ((entries.getLast?).map StreamEntry.id).getD (0, 0) := by
      rw [he]
      simpa using hxe.symm
    rcases not_and_or.mp h with hgt | hL0
    · have hpos : 0 < compare_stream_ids (ms, seq)
          (((entries.getLast?).map StreamEntry.id).getD (0, 0)) := by omega
      rw [compare_stream_ids_pos_iff] at hpos
      rw [hxL]
      exact hpos
    · have hL00 : ((entries.getLast?).map StreamEntry.id).getD (0, 0) = (0, 0) := by
        by_contra hne
        exact hL0 hne
      rw [hxL, hL00]
      have : ms ≠ 0 ∨ seq ≠ 0 := by
        by_contra hms
        push_neg at hms
        exact h0 (by simp [hms.1, hms.2])
      unfold idLt
      simp only
      omega

/-- C6 witness: a duplicate explicit id on a one-entry stream is
rejected with the equal-or-smaller error. -/
theorem c6_xadd_explicit_id_witness :
    compare_stream_ids (1, 1) (1, 1) ≤ 0 ∧ ((1, 1) : Nat × Nat) ≠ (0, 0) ∧
    xadd 5 [⟨(1, 1), []⟩] (.explicit 1 1) [] =
      .error "The ID specified in XADD is equal or smaller than the target stream top item" :=
  ⟨by decide, by decide,
   (c6_xadd_explicit_id 5 1 1 [⟨(1, 1), []⟩] [] (1, 1) rfl).1 ⟨by decide, by decide⟩⟩

/-- C7: the RDB loader reads the 2-byte (`0x01`) and 4-byte (`0x02`)
integer sub-encodings with an unsigned `int.from_bytes` call, so the
bytes `FF FF` load as the string `"65535"`, while §4.5 of the
specification prescribes the signed reading, which gives `-1`. -/
theorem c7_rdb_integer_encoding_unsigned :
    read_rdb_encoded_string 193 [255, 255] = (some "65535", []) ∧
    intFromBytesLEsigned [255, 255] = -1 ∧
    read_rdb_encoded_string 194 [255, 255, 255, 255] = (some "4294967295", []) ∧
    intFromBytesLEsigned [255, 255, 255, 255] = -1 ∧
    (some "65535" : Option String) ≠ some "-1" :=
  ⟨rfl, rfl, rfl, rfl, by decide⟩

/-- C8: on a live list entry, `lrange_rtn` computes exactly the
specification's index semantics (`lrangeSpec`: inclusive bounds,
negative indices from the tail, empty when the normalized start exceeds
the end or the length, otherwise the slice from `max(0,start)` to
`min(length-1,end)`), and the bounds `0, -1` return the whole list, for
every length including 0. -/
theorem c8_lrange_semantics (now : Int) (st : State) (key : String) (lst : List String)
    (exp : Option Int) (start end_ : Int)
    (hget : dictGet key st.data = some ⟨.vlist lst, exp⟩)
    (hexp : ∀ t, exp = some t → now < t) :
    lrange_rtn now key start end_ st = (lrangeSpec lst start end_, st) ∧
    lrange_rtn now key 0 (-1) st = (lst, st) := by
  have hval : get_valid_entry now key st (some "list") = (some ⟨.vlist lst, exp⟩, st) := by
    rw [get_valid_entry_of_live hget hexp (some "list")]
    simp [EntryVal.typeStr]
  have hspec01 : lrangeSpec lst 0 (-1) = lst := by
    simp only [lrangeSpec, pySlice]
    norm_num
  have hgen : ∀ s e : Int, lrange_rtn now key s e st = (lrangeSpec lst s e, st) := by
    intro s e
    simp only [lrange_rtn, hval, lrangeSpec, pySlice]
    generalize (if s < 0 then s + (lst.length : Int) else s) = s1
    generalize (if e < 0 then e + (lst.length : Int) else e) = e1
    split_ifs with h1 h2
    · rfl
    · simp only [Prod.mk.injEq, and_true]
      exact (List.drop_eq_nil_of_le (by rw [List.length_take]; omega)).symm
    · exfalso
      omega
    · simp only [Prod.mk.injEq, and_true]
      have hmin : min (e1 + 1) (lst.length : Int) = min ((lst.length : Int) - 1) e1 + 1 := by
        omega
      rw [hmin]
  exact ⟨hgen start end_, by rw [hgen 0 (-1), hspec01]⟩

/-- C8 witness: the semantics at the concrete list `["a", "b", "c"]`
with bounds `(-2, -1)` and `(0, -1)`. -/
theorem c8_lrange_semantics_witness :
    dictGet "L" (⟨[("L", ⟨.vlist ["a", "b", "c"], none⟩)], []⟩ : State).data =
      some ⟨.vlist ["a", "b", "c"], none⟩ ∧
    lrange_rtn 0 "L" (-2) (-1) ⟨[("L", ⟨.vlist ["a", "b", "c"], none⟩)], []⟩ =
      (lrangeSpec ["a", "b", "c"] (-2) (-1), ⟨[("L", ⟨.vlist ["a", "b", "c"], none⟩)], []⟩) ∧
    lrange_rtn 0 "L" 0 (-1) ⟨[("L", ⟨.vlist ["a", "b", "c"], none⟩)], []⟩ =
      (["a", "b", "c"], ⟨[("L", ⟨.vlist ["a", "b", "c"], none⟩)], []⟩) :=
  ⟨rfl,
   (c8_lrange_semantics 0 ⟨[("L", ⟨.vlist ["a", "b", "c"], none⟩)], []⟩ "L" ["a", "b", "c"]
      none (-2) (-1) rfl (fun t ht => by cases ht)).1,
   (c8_lrange_semantics 0 ⟨[("L", ⟨.vlist ["a", "b", "c"], none⟩)], []⟩ "L" ["a", "b", "c"]
      none (-2) (-1) rfl (fun t ht => by cases ht)).2⟩

/-- C10: `_incr_generic` — hence both `INCR` and `INCRBY`, which call it
with amount 1 resp. the parsed amount — is atomic with respect to
errors: on a live entry of non-string kind it returns the `WRONGTYPE`
error, and on a live string entry whose value does not parse as an
integer it returns the not-an-integer error; in both cases the state
(entry kind, value and expiry included) is exactly what it was. -/
theorem c10_incr_error_atomicity (now : Int) (k : String) (amount : Int) (st : State)
    (e : Entry) (hget : dictGet k st.data = some e)
    (hexp : ∀ t, e.expiry = some t → now < t) :
    ((∀ s, e.value ≠ .vstr s) →
      incr_generic now k amount st =
        (.error "WRONGTYPE Operation against a key holding the wrong kind of value", st)) ∧
    (∀ s, e.value = .vstr s → pyToInt s = none →
      incr_generic now k amount st =
        (.error "value is not an integer or out of range", st)) := by
  have hne1 : (check_expiry_step now k e st false).1 = false := by
    rcases hE : e.expiry with _ | t
    · simp [check_expiry_step, hE]
    · simp [check_expiry_step, hE, not_le.mpr (hexp t hE)]
  have hne2 : (check_expiry_step now k e st false).2 = st := by
    rcases hE : e.expiry with _ | t
    · simp [check_expiry_step, hE]
    · simp [check_expiry_step, hE, not_le.mpr (hexp t hE)]
  constructor
  · intro hns
    cases hv : e.value with
    | vstr s => exact absurd hv (hns s)
    | vlist l => simp [incr_generic, hget, hne1, hne2, hv]
    | vnone => simp [incr_generic, hget, hne1, hne2, hv]
  · intro s hv hp
    simp [incr_generic, hget, hne1, hne2, hv, hp]

/-- C10 witness: a list-kinded key and a non-numeric string key, both
left exactly as they were by the failing increment. -/
theorem c10_incr_error_atomicity_witness :
    incr_generic 0 "k" 5 ⟨[("k", ⟨.vlist ["a"], none⟩)], []⟩ =
      (.error "WRONGTYPE Operation against a key holding the wrong kind of value",
       ⟨[("k", ⟨.vlist ["a"], none⟩)], []⟩) ∧
    incr_generic 0 "s" 5 ⟨[("s", ⟨.vstr "abc", none⟩)], []⟩ =
      (.error "value is not an integer or out of range",
       ⟨[("s", ⟨.vstr "abc", none⟩)], []⟩) :=
  ⟨(c10_incr_error_atomicity 0 "k" 5 ⟨[("k", ⟨.vlist ["a"], none⟩)], []⟩ ⟨.vlist ["a"], none⟩
      rfl (fun t ht => by cases ht)).1 (fun s h => by cases h),
   (c10_incr_error_atomicity 0 "s" 5 ⟨[("s", ⟨.vstr "abc", none⟩)], []⟩ ⟨.vstr "abc", none⟩
      rfl (fun t ht => by cases ht)).2 "abc" rfl rfl⟩

/-- C1 counterexample: `RPUSH` on a key holding a string does not fail
with `WRONGTYPE` — it answers `:1` and silently replaces the string
entry with a fresh one-element list. -/
theorem c1_wrongtype_counterexample :
    (rpushCmd 0 ⟨[("k", ⟨.vstr "v", none⟩)], []⟩ "k" ["x"] false).1 = Resp.int 1 ∧
    Resp.int 1 ≠ Resp.error wrongTypeMsg ∧
    (rpushCmd 0 ⟨[("k", ⟨.vstr "v", none⟩)], []⟩ "k" ["x"] false).2.2 =
      ⟨[("k", ⟨.vlist ["x"], none⟩)], []⟩ ∧
    (⟨[("k", ⟨.vlist ["x"], none⟩)], []⟩ : State) ≠ ⟨[("k", ⟨.vstr "v", none⟩)], []⟩ :=
  ⟨rfl, fun h => Resp.noConfusion h, rfl, by decide⟩

/-- C1 (amended): only `GET` and `INCR`/`INCRBY` answer a wrong-kinded
live key with the `WRONGTYPE` error (leaving the store unchanged); the
list commands treat such a key as if it were absent — `LLEN` answers 0,
`LRANGE` an empty array and `LPOP` a null bulk, all without modifying
the entry, while `RPUSH` and `LPUSH` replace the existing entry with a
fresh list of the pushed elements and answer its length. -/
theorem c1_wrongtype_amended (now : Int) (st : State) (k : String) (e : Entry)
    (amount start end_ : Int) (countArg : Option Int) (elements : List String)
    (hget : dictGet k st.data = some e)
    (hexp : ∀ t, e.expiry = some t → now < t) :
    ((∀ s, e.value ≠ .vstr s) →
      getCmd now st k = (.error wrongTypeMsg, st) ∧
      incr_generic now k amount st = (.error wrongTypeMsg, st)) ∧
    ((∀ l, e.value ≠ .vlist l) →
      llenCmd now st k = (.int 0, st) ∧
      lrangeCmd now st k start end_ = (.array [], st) ∧
      lpopCmd now st k countArg = (.nullBulk, st) ∧
      rpushCmd now st k elements false =
        (.int elements.length, none, set_list k elements none st) ∧
      lpushCmd now st k elements = (.int elements.length, set_list k elements none st)) := by
  have hvalNone : get_valid_entry now k st none = (some e, st) :=
    get_valid_entry_of_live hget hexp none
  have hne1 : (check_expiry_step now k e st false).1 = false := by
    rcases hE : e.expiry with _ | t
    · simp [check_expiry_step, hE]
    · simp [check_expiry_step, hE, not_le.mpr (hexp t hE)]
  have hne2 : (check_expiry_step now k e st false).2 = st := by
    rcases hE : e.expiry with _ | t
    · simp [check_expiry_step, hE]
    · simp [check_expiry_step, hE, not_le.mpr (hexp t hE)]
  constructor
  · intro hns
    constructor
    · cases hv : e.value with
      | vstr s => exact absurd hv (hns s)
      | vlist l => simp [getCmd, get_data_entry, hvalNone, hv]
      | vnone => simp [getCmd, get_data_entry, hvalNone, hv]
    · cases hv : e.value with
      | vstr s => exact absurd hv (hns s)
      | vlist l => simp [incr_generic, hget, hne1, hne2, hv, wrongTypeMsg]
      | vnone => simp [incr_generic, hget, hne1, hne2, hv, wrongTypeMsg]
  · intro hnl
    have htype : e.value.typeStr ≠ "list" := by
      cases hv : e.value with
      | vstr s => simp [EntryVal.typeStr]
      | vlist l => exact absurd hv (hnl l)
      | vnone => simp [EntryVal.typeStr]
    have hvalL : get_valid_entry now k st (some "list") = (none, st) := by
      rw [get_valid_entry_of_live hget hexp (some "list")]
      simp [htype]
    have hset : dictGet k (set_list k elements none st).data =
        some ⟨.vlist elements, none⟩ := by
      simp [set_list, dictGet_set_self]
    have hval2 : get_valid_entry now k (set_list k elements none st) (some "list") =
        (some ⟨.vlist elements, none⟩, set_list k elements none st) := by
      rw [get_valid_entry_of_live hset (fun t ht => by cases ht) (some "list")]
      simp [EntryVal.typeStr]
    refine ⟨?_, ?_, ?_, ?_, ?_⟩
    · simp [llenCmd, size_of_list, hvalL]
    · simp [lrangeCmd, lrange_rtn, hvalL]
    · simp [lpopCmd, existing_list, hvalL]
    · simp [rpushCmd, existing_list, hvalL, size_of_list, hval2]
    · simp [lpushCmd, existing_list, hvalL, size_of_list, hval2]

/-- C1 witness: a stream-kinded key (neither string- nor list-kinded)
exercising both halves of the amended statement. -/
theorem c1_wrongtype_amended_witness :
    getCmd 0 ⟨[("k", ⟨.vnone, none⟩)], []⟩ "k" =
      (.error wrongTypeMsg, ⟨[("k", ⟨.vnone, none⟩)], []⟩) ∧
    rpushCmd 0 ⟨[("k", ⟨.vnone, none⟩)], []⟩ "k" ["x"] false =
      (.int 1, none, set_list "k" ["x"] none ⟨[("k", ⟨.vnone, none⟩)], []⟩) :=
  have h := c1_wrongtype_amended 0 ⟨[("k", ⟨.vnone, none⟩)], []⟩ "k" ⟨.vnone, none⟩
    1 0 0 none ["x"] rfl (fun t ht => by cases ht)
  ⟨(h.1 (fun s hs => EntryVal.noConfusion hs)).1,
   (h.2 (fun l hl => EntryVal.noConfusion hl)).2.2.2.1⟩

/-- C2 counterexample: at time 5, with key `"k"` expired at time 0,
`KEYS *` still lists `"k"` and leaves the store untouched, and `INCR`
leaves `"k"` present afterwards (as a fresh `"1"` entry) — against the
claim that every read at or after the expiry observes the key absent
and leaves it absent. -/
theorem c2_expiry_counterexample :
    (keysCmd ⟨[("k", ⟨.vstr "7", some 0⟩)], []⟩ "*").1 = Resp.array [Resp.bulk "k"] ∧
    (keysCmd ⟨[("k", ⟨.vstr "7", some 0⟩)], []⟩ "*").2 = ⟨[("k", ⟨.vstr "7", some 0⟩)], []⟩ ∧
    dictGet "k" ((incr_generic 5 "k" 1 ⟨[("k", ⟨.vstr "7", some 0⟩)], []⟩).2).data =
      some ⟨.vstr "1", none⟩ :=
  ⟨rfl, rfl, rfl⟩

/-- C2 (amended): for a key whose expiry has passed, the reads routed
through the expiry check — `GET`, `TYPE`, `LLEN`, `LRANGE`, `LPOP` —
observe the key as absent and delete it (from `DATA_STORE` and
`STREAMS`), so it is absent afterwards; `INCR` also observes it as
absent and deletes the expired entry, but then stores a fresh string
entry under the key; `KEYS` performs no expiry check at all, so an
expired key is still listed and not removed. -/
theorem c2_expiry_amended (now t : Int) (st : State) (k : String) (e : Entry)
    (amount start end_ : Int) (countArg : Option Int)
    (hget : dictGet k st.data = some e)
    (ht : e.expiry = some t) (hnow : t ≤ now) :
    getCmd now st k = (.nullBulk, ⟨dictDel k st.data, dictDel k st.streams⟩) ∧
    typeCmd now st k = (.bulk "none", ⟨dictDel k st.data, dictDel k st.streams⟩) ∧
    llenCmd now st k = (.int 0, ⟨dictDel k st.data, dictDel k st.streams⟩) ∧
    lrangeCmd now st k start end_ = (.array [], ⟨dictDel k st.data, dictDel k st.streams⟩) ∧
    lpopCmd now st k countArg = (.nullBulk, ⟨dictDel k st.data, dictDel k st.streams⟩) ∧
    incr_generic now k amount st =
      (.ok amount,
       ⟨dictSet k ⟨.vstr (toString amount), none⟩ (dictDel k st.data), st.streams⟩) ∧
    ((st.data.map Prod.fst).Nodup → dictGet k (dictDel k st.data) = none) ∧
    keysCmd st "*" = ((.array ((st.data.map (fun kv => Resp.bulk kv.1)))), st) := by
  have hvalNone := get_valid_entry_of_expired hget ht hnow none
  have hvalL := get_valid_entry_of_expired hget ht hnow (some "list")
  refine ⟨?_, ?_, ?_, ?_, ?_, ?_, ?_, ?_⟩
  · simp [getCmd, get_data_entry, hvalNone]
  · simp [typeCmd, get_data_entry, hvalNone]
  · simp [llenCmd, size_of_list, hvalL]
  · simp [lrangeCmd, lrange_rtn, hvalL]
  · simp [lpopCmd, existing_list, hvalL]
  · simp [incr_generic, hget, check_expiry_step, ht, hnow]
  · intro hnd
    exact dictGet_del_self k st.data hnd
  · have haux : ∀ l : List (String × Entry),
        List.map Resp.bulk (List.filterMap (fun kv => some kv.1) l) =
          List.map (fun kv => Resp.bulk kv.1) l := by
      intro l
      induction l with
      | nil => rfl
      | cons x xs ih => simp [ih]
    simp [keysCmd, haux]

/-- C2 witness: the amended behaviour at a concrete expired key, with
the key gone from the store afterwards. -/
theorem c2_expiry_amended_witness :
    getCmd 5 ⟨[("k", ⟨.vstr "7", some 0⟩)], [("k", [])]⟩ "k" =
      (.nullBulk, ⟨[], []⟩) ∧
    dictGet "k" (dictDel "k" [("k", (⟨.vstr "7", some 0⟩ : Entry))]) = none :=
  have h := c2_expiry_amended 5 0 ⟨[("k", ⟨.vstr "7", some 0⟩)], [("k", [])]⟩ "k"
    ⟨.vstr "7", some 0⟩ 1 0 0 none rfl rfl (by decide)
  ⟨h.1, h.2.2.2.2.2.2.1 (by decide)⟩

/-- C3 counterexample: `LPOP L 1` on a two-element list — a call *with*
a count argument — answers a single bulk string, not an array frame,
against the claim that a count argument always yields an array. -/
theorem c3_lpop_counterexample :
    (lpopCmd 0 ⟨[("L", ⟨.vlist ["a", "b"], none⟩)], []⟩ "L" (some 1)).1 = Resp.bulk "a" ∧
    Resp.bulk "a" ≠ Resp.array [Resp.bulk "a"] ∧
    Resp.bulk "a" ≠ Resp.array [] ∧
    Resp.bulk "a" ≠ Resp.nullArray :=
  ⟨rfl, fun h => Resp.noConfusion h, fun h => Resp.noConfusion h, fun h => Resp.noConfusion h⟩

/-- C3 (amended): `LPOP` pops the first `min(k, L)` elements in
head-to-tail order; with no count argument the response is a single bulk
string; with a count argument the response is an array of the popped
elements *except* when exactly one element is popped, in which case it
is the same single-bulk frame as the no-count form; a key holding no
valid list answers a null bulk string (not a null array). -/
theorem c3_lpop_amended (now : Int) (st : State) (key : String) (lst : List String)
    (exp : Option Int) (c : Int)
    (hget : dictGet key st.data = some ⟨.vlist lst, exp⟩)
    (hexp : ∀ t, exp = some t → now < t) (hne : lst ≠ []) :
    (lpopCmd now st key (some c)).1 =
      (match lst.take (min c (lst.length : Int)).toNat with
       | [e] => Resp.bulk e
       | l => Resp.array (l.map Resp.bulk)) ∧
    (lpopCmd now st key none).1 = Resp.bulk lst.headI ∧
    (∀ st2 : State, dictGet key st2.data = none →
      lpopCmd now st2 key (some c) = (.nullBulk, st2)) := by
  have hval : get_valid_entry now key st (some "list") = (some ⟨.vlist lst, exp⟩, st) := by
    rw [get_valid_entry_of_live hget hexp (some "list")]
    simp [EntryVal.typeStr]
  have hex : existing_list now key st = (true, st) := by
    simp [existing_list, hval]
  have hrem : ∀ cnt : Int, (remove_elements_from_list now key cnt st).1 =
      some (lst.take (min cnt (lst.length : Int)).toNat) := by
    intro cnt
    simp only [remove_elements_from_list, hval, hne, ne_eq, not_false_iff, if_true]
    split_ifs <;> rfl
  refine ⟨?_, ?_, ?_⟩
  · simp only [lpopCmd, hex, Bool.not_true, Bool.false_eq_true, if_false, Option.getD_some]
    rw [hrem c]
    generalize lst.take (min c (lst.length : Int)).toNat = l0
    rcases l0 with _ | ⟨x, _ | ⟨y, tl⟩⟩ <;> rfl
  · simp only [lpopCmd, hex, Bool.not_true, Bool.false_eq_true, if_false, Option.getD_none]
    rw [hrem 1]
    rcases lst with _ | ⟨a, tl⟩
    · exact absurd rfl hne
    · have h1 : (min (1 : Int) ((a :: tl).length : Int)).toNat = 1 := by
        simp only [List.length_cons]
        omega
      rw [h1]
      rfl
  · intro st2 h2
    have habs := @get_valid_entry_of_absent now key st2 h2 (some "list")
    simp [lpopCmd, existing_list, habs]

/-- C3 witness: the amended behaviour on the list `["a", "b"]` with
count 5, with no count, and on an absent key. -/
theorem c3_lpop_amended_witness :
    (lpopCmd 0 ⟨[("L", ⟨.vlist ["a", "b"], none⟩)], []⟩ "L" (some 5)).1 =
      Resp.array [Resp.bulk "a", Resp.bulk "b"] ∧
    (lpopCmd 0 ⟨[("L", ⟨.vlist ["a", "b"], none⟩)], []⟩ "L" none).1 = Resp.bulk "a" ∧
    lpopCmd 0 ⟨[], []⟩ "L" (some 5) = (.nullBulk, ⟨[], []⟩) :=
  have h := c3_lpop_amended 0 ⟨[("L", ⟨.vlist ["a", "b"], none⟩)], []⟩ "L" ["a", "b"]
    none 5 rfl (fun t ht => by cases ht) (by decide)
  ⟨h.1, h.2.1, h.2.2 ⟨[], []⟩ rfl⟩

/-- C4: when `RPUSH` wakes a blocked `BLPOP` waiter, the element handed
to the waiter is the head of the list as it stands after the push step
and before the handoff pop (the oldest element, not necessarily a
just-pushed one), and the integer answered to the pushing client is the
list length after insertion and before the handoff pop — the same
number a push with no waiter reports.  `st2` is the state after the
push step, `l` the list then stored at the key.  (`LPUSH` in this
source never wakes a waiter, so the claim is vacuous for it.) -/
theorem c4_rpush_waiter_handoff (now : Int) (st st2 : State) (key : String)
    (elements l : List String) (exp : Option Int)
    (hst2 : st2 = (if (existing_list now key st).1
        then elements.foldl (fun s e => append_to_list now key e s) (existing_list now key st).2
        else set_list key elements none (existing_list now key st).2))
    (hl : dictGet key st2.data = some ⟨.vlist l, exp⟩)
    (hexp : ∀ t, exp = some t → now < t) (hne : l ≠ []) :
    (rpushCmd now st key elements true).1 = .int l.length ∧
    (rpushCmd now st key elements true).2.1 = some l.headI ∧
    (rpushCmd now st key elements false).1 = .int l.length := by
  have hval2 : get_valid_entry now key st2 (some "list") = (some ⟨.vlist l, exp⟩, st2) := by
    rw [get_valid_entry_of_live hl hexp (some "list")]
    simp [EntryVal.typeStr]
  have hsz : size_of_list now key st2 = (l.length, st2) := by
    simp [size_of_list, hval2]
  have htake : l.take (min (1 : Int) (l.length : Int)).toNat = [l.headI] := by
    rcases l with _ | ⟨a, tl⟩
    · exact absurd rfl hne
    · have h1 : (min (1 : Int) ((a :: tl).length : Int)).toNat = 1 := by
        simp only [List.length_cons]
        omega
      rw [h1]
      rfl
  have hrem1 : (remove_elements_from_list now key 1 st2).1 = some [l.headI] := by
    simp only [remove_elements_from_list, hval2, hne, ne_eq, not_false_iff, if_true]
    split_ifs <;> simp [htake]
  refine ⟨?_, ?_, ?_⟩ <;>
    (simp only [rpushCmd, ← hst2, hsz, if_true]
     try rw [hrem1]
     try rfl)

/-- C4 witness: pushing `"x"` onto an absent key with a parked waiter
answers `:1` and hands the waiter the element `"x"`. -/
theorem c4_rpush_waiter_handoff_witness :
    (rpushCmd 0 ⟨[], []⟩ "L" ["x"] true).1 = .int 1 ∧
    (rpushCmd 0 ⟨[], []⟩ "L" ["x"] true).2.1 = some "x" :=
  have h := c4_rpush_waiter_handoff 0 ⟨[], []⟩ ⟨[("L", ⟨.vlist ["x"], none⟩)], []⟩ "L"
    ["x"] ["x"] none rfl rfl (fun t ht => by cases ht) (by decide)
  ⟨h.1, h.2.1⟩

/-! ## Round-trip of the wire codec -/

theorem natToDecimal_all_digits (n : Nat) : ∀ b ∈ natToDecimal n, isDigitByte b = true := by
  intro b hb
  unfold natToDecimal at hb
  split_ifs at hb with h
  · simp only [List.mem_singleton] at hb
    subst hb
    rfl
  · simp only [List.mem_map, List.mem_reverse] at hb
    obtain ⟨d, hd, rfl⟩ := hb
    have hlt : d < 10 := Nat.digits_lt_base (by norm_num) hd
    simp only [isDigitByte, Bool.and_eq_true, decide_eq_true_eq]
    omega

theorem natToDecimal_ne_nil (n : Nat) : natToDecimal n ≠ [] := by
  unfold natToDecimal
  split_ifs with h
  · simp
  · simp [Nat.digits_ne_nil_iff_ne_zero.mpr h]

theorem decValue_rev_map (l : List Nat) :
    decValue ((l.reverse).map (fun d => d + 48)) = Nat.ofDigits 10 l := by
  induction l with
  | nil => rfl
  | cons d tl ih =>
    simp only [List.reverse_cons, List.map_append, List.map_cons, List.map_nil]
    unfold decValue at ih ⊢
    rw [List.foldl_append, ih, List.foldl_cons, List.foldl_nil, Nat.ofDigits_cons]
    push_cast
    omega

theorem decValue_natToDecimal (n : Nat) : decValue (natToDecimal n) = n := by
  unfold natToDecimal
  split_ifs with h
  · subst h
    rfl
  · rw [decValue_rev_map, Nat.ofDigits_digits]

theorem takeWhile_digits_append (ds r : List Nat) (h : ∀ b ∈ ds, isDigitByte b = true) :
    (ds ++ 13 :: r).takeWhile isDigitByte = ds ∧
    (ds ++ 13 :: r).dropWhile isDigitByte = 13 :: r := by
  constructor
  · rw [List.takeWhile_append_of_pos h, List.takeWhile_cons_of_neg (by decide)]
    simp
  · rw [List.dropWhile_append_of_pos h, List.dropWhile_cons_of_neg (by decide)]

theorem matchLenHeader_encode (mark n : Nat) (rest : List Nat) :
    matchLenHeader mark (mark :: (natToDecimal n ++ 13 :: 10 :: rest)) =
      some (natToDecimal n, rest) := by
  have h := takeWhile_digits_append (natToDecimal n) (10 :: rest) (natToDecimal_all_digits n)
  simp only [matchLenHeader, if_pos rfl, h.1, h.2]
  simp [natToDecimal_ne_nil n]

theorem parseBulks_encode (l : List (List Nat)) (h : ∀ e ∈ l, validUtf8 e = true) :
    parseBulks l.length ((l.map encode_bulk_string).flatten) = .ok (some l) := by
  induction l with
  | nil => rfl
  | cons e tl ih =>
    have hnorm : (((e :: tl).map encode_bulk_string)).flatten =
        36 :: (natToDecimal e.length ++ 13 :: 10 ::
          (e ++ 13 :: 10 :: ((tl.map encode_bulk_string)).flatten)) := by
      simp [encode_bulk_string, List.append_assoc]
    rw [hnorm, List.length_cons, parseBulks, matchLenHeader_encode 36 e.length]
    dsimp only
    have hpi : pyIntOfDigits (natToDecimal e.length) = .ok e.length := by
      unfold pyIntOfDigits
      rw [if_pos ⟨natToDecimal_ne_nil e.length,
            List.all_eq_true.mpr (natToDecimal_all_digits e.length)⟩,
          decValue_natToDecimal]
    have hlen : ¬ (e ++ 13 :: 10 :: ((tl.map encode_bulk_string)).flatten).length <
        e.length + 2 := by
      simp only [List.length_append, List.length_cons]
      omega
    have htk : (e ++ 13 :: 10 :: ((tl.map encode_bulk_string)).flatten).take e.length = e :=
      List.take_left e _
    have hdrop : (e ++ 13 :: 10 :: ((tl.map encode_bulk_string)).flatten).drop
        (e.length + 2) = ((tl.map encode_bulk_string)).flatten := by
      rw [show e ++ 13 :: 10 :: ((tl.map encode_bulk_string)).flatten =
            (e ++ [13, 10]) ++ ((tl.map encode_bulk_string)).flatten by simp,
          show e.length + 2 = (e ++ [13, 10]).length by simp]
      exact List.drop_left _ _
    have hdec : pyUtf8Decode e = .ok e := by
      unfold pyUtf8Decode
      rw [if_pos (h e (List.mem_cons_self e tl))]
    simp [hpi, hlen, htk, hdec, hdrop, ih (fun x hx => h x (List.mem_cons_of_mem e hx))]

/-- C5: decoding is a left inverse of the array-of-bulk-strings encoder:
for every request list (each element a Python string, carried here as
its UTF-8 bytes), encoding it with `encode_array` over
`encode_bulk_string` and parsing the result with `parse_resp_array`
yields the original list. -/
theorem c5_codec_roundtrip (l : List (List Nat)) (h : ∀ e ∈ l, validUtf8 e = true) :
    parse_resp_array (encode_array (l.map encode_bulk_string)) = some l := by
  have hnorm : encode_array (l.map encode_bulk_string) =
      42 :: (natToDecimal l.length ++ 13 :: 10 :: ((l.map encode_bulk_string)).flatten) := by
    simp [encode_array, List.append_assoc]
  have hbody : parseRespBody (encode_array (l.map encode_bulk_string)) = .ok (some l) := by
    rw [hnorm, parseRespBody]
    rw [if_neg (by simp), matchLenHeader_encode 42 l.length]
    dsimp only
    have hpi : pyIntOfDigits (natToDecimal l.length) = .ok l.length := by
      unfold pyIntOfDigits
      rw [if_pos ⟨natToDecimal_ne_nil l.length,
            List.all_eq_true.mpr (natToDecimal_all_digits l.length)⟩,
          decValue_natToDecimal]
    simp [hpi, parseBulks_encode l h]
  simp [parse_resp_array, hbody]

/-- C5 witness: the round trip at the concrete request
`["foo", "bar"]` (bytes of its RESP encoding). -/
theorem c5_codec_roundtrip_witness :
    (∀ e ∈ [[102, 111, 111], [98, 97, 114]], validUtf8 e = true) ∧
    parse_resp_array (encode_array ([[102, 111, 111], [98, 97, 114]].map encode_bulk_string)) =
      some [[102, 111, 111], [98, 97, 114]] :=
  ⟨by decide, c5_codec_roundtrip [[102, 111, 111], [98, 97, 114]] (by decide)⟩

/-! ## Totality of the request decoder -/

theorem pyIntOfDigits_error_caught {ds : List Nat} {e : PyExc}
    (h : pyIntOfDigits ds = .error e) : e = .valueError := by
  unfold pyIntOfDigits at h
  split_ifs at h
  all_goals cases h
  all_goals rfl

theorem pyUtf8Decode_error_caught {s : List Nat} {e : PyExc}
    (h : pyUtf8Decode s = .error e) : e = .unicodeDecodeError := by
  unfold pyUtf8Decode at h
  split_ifs at h
  all_goals cases h
  all_goals rfl

theorem parseBulks_errors_caught :
    ∀ (count : Nat) (data : List Nat) (e : PyExc),
      parseBulks count data = .error e → e = .valueError ∨ e = .unicodeDecodeError := by
  intro count
  induction count with
  | zero =>
    intro data e h
    cases h
  | succ k ih =>
    intro data e h
    rw [parseBulks] at h
    rcases hm : matchLenHeader 36 data with _ | ⟨ds, rest⟩
    · rw [hm] at h
      cases h
    · rw [hm] at h
      dsimp only at h
      rcases hpi : pyIntOfDigits ds with e1 | n
      · rw [hpi] at h
        cases h
        exact Or.inl (pyIntOfDigits_error_caught hpi)
      · rw [hpi] at h
        dsimp only at h
        by_cases hl : rest.length < n + 2
        · rw [if_pos hl] at h
          cases h
        · rw [if_neg hl] at h
          rcases hdec : pyUtf8Decode (rest.take n) with e2 | content
          · rw [hdec] at h
            cases h
            exact Or.inr (pyUtf8Decode_error_caught hdec)
          · rw [hdec] at h
            rcases hrec : parseBulks k (rest.drop (n + 2)) with e3 | r
            · rw [hrec] at h
              cases h
              exact ih _ _ hrec
            · rw [hrec] at h
              rcases r with _ | tl <;> cases h

/-- C9: the request decoder is total.  Every exception the body of
`parse_resp_array` can raise belongs to the two classes its `except`
clause catches (`ValueError`, `UnicodeDecodeError`) — never an uncaught
class — so on every input byte string whatsoever the function returns a
list of strings or `None` and never propagates an exception. -/
theorem c9_parse_resp_array_total (data : List Nat) :
    (∀ e : PyExc, parseRespBody data = .error e →
      e = .valueError ∨ e = .unicodeDecodeError) ∧
    (parse_resp_array data = none ∨ ∃ r, parse_resp_array data = some r) := by
  constructor
  · intro e h
    rw [parseRespBody] at h
    by_cases hd : data = []
    · rw [if_pos hd] at h
      cases h
    · rw [if_neg hd] at h
      rcases hm : matchLenHeader 42 data with _ | ⟨ds, rest⟩
      · rw [hm] at h
        cases h
      · rw [hm] at h
        dsimp only at h
        rcases hpi : pyIntOfDigits ds with e1 | n
        · rw [hpi] at h
          cases h
          exact Or.inl (pyIntOfDigits_error_caught hpi)
        · rw [hpi] at h
          exact parseBulks_errors_caught n rest e h
  · rcases hp : parse_resp_array data with _ | r
    · exact Or.inl rfl
    · exact Or.inr ⟨r, rfl⟩

/-- C9 witness: a frame whose bulk payload is not UTF-8 raises
`UnicodeDecodeError` in the body — a caught class — and decodes to
`None`. -/
theorem c9_parse_resp_array_total_witness :
    parseRespBody [42, 49, 13, 10, 36, 50, 13, 10, 255, 255, 13, 10] =
      .error .unicodeDecodeError ∧
    (PyExc.unicodeDecodeError = .valueError ∨
      PyExc.unicodeDecodeError = .unicodeDecodeError) ∧
    parse_resp_array [42, 49, 13, 10, 36, 50, 13, 10, 255, 255, 13, 10] = none :=
  ⟨rfl,
   (c9_parse_resp_array_total [42, 49, 13, 10, 36, 50, 13, 10, 255, 255, 13, 10]).1
     .unicodeDecodeError rfl,
   rfl⟩

end RespServer
